import Mathlib

/-!
BizCoin protocol driver (`protocols/bizcoin/bizcoin.go`).

A shallow embedding of the per-node driver of the two-round collective signing
protocol: block assembly (`getBlock`), block verification (`verifyBlock`), the
handlers of the prepare and commit rounds and one iteration of `Dispatch`.

Conventions of the embedding.

* The receiver `bz *BizCoin` is a value of the structure `BizCoin`; a method
  returns an `Outcome` holding the receiver after the call, the list of
  `SendTo` calls it made (in order) and how the call ended.
* What the file imports from other packages (the tree node, the signing
  primitive `cosi`, the hash functions of `blockchain`, `encoding/json`) is a
  field of the environment `Env`.
* Unbuffered channels written by a spawned task (`verifyBlockChan`,
  `prepareFinishedChan`) are the queue of values waiting to be received; a
  receive on an empty queue leaves the call `blocked`. A channel that was never
  made is nil: nothing is ever received from it and nothing sent to it arrives.
* Helpers of the `blockchain` package that build a block
  (`NewTransactionList`, `NewHeader`, `NewTrBlock`) are fields of `Env` as
  well; what a statement needs of them is a hypothesis of that statement.
-/

namespace Bizcoin

/-! ## Values owned by collaborators -/

/-- A node of the tree (`*sda.TreeNode`). -/
abbrev TreeNode := Nat

/-- A public identity (`abstract.Point`). -/
abbrev Point := Nat

/-- A transaction (`blkparser.Tx`). -/
abbrev Tx := Nat

/-- The state of one signing round (`*cosi.Cosi`). -/
abbrev Cosi := Nat

/-- A round announcement (`*cosi.Announcement`). -/
abbrev Announcement := Nat

/-- A round commitment (`*cosi.Commitment`). -/
abbrev Commitment := Nat

/-- A round challenge (`*cosi.Challenge`). -/
abbrev Challenge := Nat

/-- A round response (`cosi.Response`); a nil pointer is `none` where it is used. -/
abbrev Response := Nat

/-- A collective signature (`*cosi.Signature`). -/
abbrev Signature := Nat

/-- A Go `error` value that is not nil. -/
abbrev Error := String

/-- The tag `TYPE` of a round message. -/
inductive RoundType where
  | ROUND_PREPARE
  | ROUND_COMMIT
  | other (tag : Nat)
  deriving DecidableEq, Repr

/-- The record `cosi.Exception`: who did not sign, and its commitment. -/
structure Exception where
  Public : Point
  Commitment : Commitment
  deriving DecidableEq, Repr

/-! ## Blocks -/

/-- The type `blockchain.TransactionList`, the fields this file reads. -/
structure TransactionList where
  TxCnt : Int
  Txs : List Tx
  deriving DecidableEq, Repr

/-- The type `blockchain.Header`, the fields this file reads. -/
structure Header where
  MerkleRoot : String
  Parent : String
  ParentKey : String
  deriving DecidableEq, Repr

/-- The type `blockchain.TrBlock`, the fields this file reads. -/
structure TrBlock where
  HeaderHash : String
  Header : Header
  TransactionList : TransactionList
  deriving DecidableEq, Repr

/-! ## Messages -/

structure BizCoinAnnounce where
  TYPE : RoundType
  Announcement : Option Announcement
  deriving DecidableEq, Repr

structure BizCoinCommitment where
  TYPE : RoundType
  Commitment : Commitment
  deriving DecidableEq, Repr

structure BizCoinChallengePrepare where
  TYPE : RoundType
  Challenge : Challenge
  TrBlock : Option TrBlock
  deriving DecidableEq, Repr

structure BizCoinChallengeCommit where
  TYPE : RoundType
  Challenge : Challenge
  Signature : Signature
  Exceptions : List Exception
  deriving DecidableEq, Repr

structure BizCoinResponse where
  TYPE : RoundType
  Response : Option Response
  Exceptions : List Exception
  deriving DecidableEq, Repr

/-- What is handed to `SendTo`. The commitment is a pointer that `handleCommit`
leaves nil for a tag that is neither round. -/
inductive Packet where
  | announce (m : BizCoinAnnounce)
  | commitment (m : Option BizCoinCommitment)
  | challengePrepare (m : BizCoinChallengePrepare)
  | challengeCommit (m : BizCoinChallengeCommit)
  | response (m : BizCoinResponse)
  deriving DecidableEq, Repr

/-! ## Collaborators -/

/-- The signing primitive (`lib/cosi`): every method takes the round state and
gives the round state back. -/
structure CosiLib where
  /-- The call `cosi.NewCosi(suite, private)`. -/
  NewCosi : Nat → Cosi
  Announce : Cosi → Option Announcement → Cosi × Option Announcement
  CreateCommitment : Cosi → Cosi × Commitment
  Commit : Cosi → List Commitment → Cosi × Commitment
  CreateChallenge : Cosi → List Nat → Cosi × Except Error Challenge
  Challenge : Cosi → Challenge → Cosi × Challenge
  CreateResponse : Cosi → Cosi × Except Error Response
  Response : Cosi → List (Option Response) → Cosi × Except Error Response
  Signature : Cosi → Signature
  GetCommitment : Cosi → Commitment
  VerifyCosiSignatureWithException :
    Point → List Nat → Bizcoin.Signature → List Exception → Option Error

/-- Everything the driver reads from outside itself. -/
structure Env where
  /-- The call `bz.Parent()`: nil at the root. -/
  Parent : Option TreeNode
  /-- The call `bz.Children()`. -/
  Children : List TreeNode
  /-- The call `bz.Public()`. -/
  Public : Point
  /-- The list `bz.EntityList().List`. -/
  EntityList : List Point
  /-- The error `bz.SendTo(node, msg)` returns. -/
  SendTo : Option TreeNode → Packet → Option Error
  /-- The call `n.Private()`. -/
  Private : Nat
  /-- The point `suite.Point().Null()`. -/
  PointNull : Point
  /-- The sum `agg.Add(agg, e.Public)`. -/
  PointAdd : Point → Point → Point
  cosi : CosiLib
  HashRootTransactions : TransactionList → String
  HashHeader : Header → String
  /-- The call `blockchain.NewTransactionList(pool, n)`. -/
  NewTransactionList : List Tx → Int → TransactionList
  /-- The call `blockchain.NewHeader(trlist, parent, parentKey)`. -/
  NewHeader : TransactionList → String → String → Header
  /-- The call `blockchain.NewTrBlock(trlist, header)`. -/
  NewTrBlock : TransactionList → Header → TrBlock
  /-- The bytes `json.Marshal` produces for a block pointer. -/
  jsonEncode : Option TrBlock → List Nat
  /-- The zero value of a `TYPE` field. -/
  zeroTYPE : RoundType

/-- Modelled from the spec: the tree role Root is "no parent" (`sda.Node.IsRoot`
is not among the sources). -/
def IsRoot (env : Env) : Bool := env.Parent.isNone

/-- Modelled from the spec: the tree role Leaf is "no children" (`sda.Node.IsLeaf`
is not among the sources). -/
def IsLeaf (env : Env) : Bool := env.Children.isEmpty

/-- The call `json.Marshal(block)`. A block is plain data (strings, integers,
lists), for which the encoder reports no error. -/
def jsonMarshal (env : Env) (block : Option TrBlock) : Except Error (List Nat) :=
  .ok (env.jsonEncode block)

/-- Modelled from the spec: `blockchain.NewTransactionList` is not among the
sources. For `n ≥ 0` it selects the first `min(n, M)` transactions of a pool of
`M` and reports that count as `TxCnt`. The spec is silent on `n < 0`, where
this function selects nothing; no statement below rests on that case. -/
def NewTransactionList (pool : List Tx) (n : Int) : TransactionList :=
  let k := (min n (pool.length : Int)).toNat
  { TxCnt := (k : Int), Txs := pool.take k }

/-- Modelled from the spec: `blockchain.NewHeader` is not among the sources.
The header links to the parent block and key block and stores the Merkle root
of the list. -/
def NewHeader (env : Env) (trlist : TransactionList) (parent parentKey : String) : Header :=
  { MerkleRoot := env.HashRootTransactions trlist, Parent := parent, ParentKey := parentKey }

/-- Modelled from the spec: `blockchain.NewTrBlock` is not among the sources.
The block is the list and the header, with the derived header hash. -/
def NewTrBlock (env : Env) (trlist : TransactionList) (header : Header) : TrBlock :=
  { HeaderHash := env.HashHeader header, Header := header, TransactionList := trlist }

/-! ## The node -/

/-- A `sync.Mutex`: whether it is held. -/
structure Mutex where
  locked : Bool
  deriving DecidableEq, Repr

/-- The struct `BizCoin`, the fields that change or are compared. The channel
`prepareFinishedChan` and the pointer `transactionLock` are nil (`none`) until
something assigns them. -/
structure BizCoin where
  aggregatedPublic : Point
  prepare : Cosi
  commit : Cosi
  prepareFinishedChan : Option (List Bool)
  verifyBlockChan : List Bool
  blockSize : Int
  tempBlock : Option TrBlock
  transaction_pool : List Tx
  transactionLock : Option Mutex
  lastBlock : String
  lastKeyBlock : String
  tempPrepareCommit : List Commitment
  tempCommitCommit : List Commitment
  tempPrepareResponse : List (Option Response)
  tempCommitResponse : List (Option Response)
  signRefusal : Bool
  deriving DecidableEq, Repr

/-- How a call ended: it returned (with an error or nil), it waits on a channel
or a lock nobody releases, or it ran into a run-time panic. -/
inductive Status where
  | returned (err : Option Error)
  | blocked
  | panicked
  deriving DecidableEq, Repr

/-- The node after a call, the `SendTo` calls made, how the call ended, and
whether a task the call spawned runs into a panic (which stops the process
once that task is scheduled). -/
structure Outcome where
  bz : BizCoin
  sent : List (Option TreeNode × Packet)
  status : Status
  taskPanic : Bool := false
  deriving DecidableEq, Repr

/-- The constructor `NewBizCoinProtocol`: the two round states, the channel
`verifyBlockChan` and the aggregate of the public identities are set; every
other field keeps its zero value, among them the nil `transactionLock` and the
nil `prepareFinishedChan`. -/
def NewBizCoinProtocol (env : Env) : BizCoin :=
  { aggregatedPublic := env.EntityList.foldl (fun agg e => env.PointAdd agg e) env.PointNull
    prepare := env.cosi.NewCosi env.Private
    commit := env.cosi.NewCosi env.Private
    prepareFinishedChan := none
    verifyBlockChan := []
    blockSize := 0
    tempBlock := none
    transaction_pool := []
    transactionLock := none
    lastBlock := ""
    lastKeyBlock := ""
    tempPrepareCommit := []
    tempCommitCommit := []
    tempPrepareResponse := []
    tempCommitResponse := []
    signRefusal := false }

/-- The statement `return bz.SendTo(bz.Parent(), msg)`. -/
def sendParent (env : Env) (bz : BizCoin) (msg : Packet) : Outcome :=
  { bz := bz, sent := [(env.Parent, msg)], status := .returned (env.SendTo env.Parent msg) }

/-- The loop `for _, tn := range bz.Children() { err = bz.SendTo(tn, msg) }`:
the sends, and the value of `err` after the loop. -/
def sendChildren (env : Env) (msg : Packet) : List (Option TreeNode × Packet) × Option Error :=
  env.Children.foldl
    (fun acc tn => (acc.1 ++ [(some tn, msg)], env.SendTo (some tn) msg)) ([], none)

/-- The loop over the children followed by `return err`. -/
def broadcast (env : Env) (bz : BizCoin) (msg : Packet) : Outcome :=
  { bz := bz, sent := (sendChildren env msg).1, status := .returned (sendChildren env msg).2 }

/-! ## Block verifier and block assembler -/

/-- The method `verifyBlock`: the value it writes to `verifyBlockChan`. The
sleep that simulates the cost of verification does not enter the value. -/
def verifyBlock (env : Env) (bz : BizCoin) (block : TrBlock) : Bool :=
  let verified :=
    decide (block.Header.Parent = bz.lastBlock) && decide (block.Header.ParentKey = bz.lastKeyBlock)
  let verified :=
    verified && decide (block.Header.MerkleRoot = env.HashRootTransactions block.TransactionList)
  let verified := verified && decide (block.HeaderHash = env.HashHeader block.Header)
  verified

/-- What `getBlock` gives: `(trblock, nil)` with the node after the call,
`(nil, err)`, a panic (of `Lock` on a nil mutex, or of the slice expression),
or no return because the mutex is held. -/
inductive GetBlockResult where
  | block (trblock : TrBlock) (bz : BizCoin)
  | error (err : Error) (bz : BizCoin)
  | panic
  | blocked
  deriving DecidableEq, Repr

/-- The method `getBlock`. `bz.transactionLock.Lock()` comes first: it panics
on a nil mutex and does not return on a held one; the deferred `Unlock` leaves
the mutex free again. The slice `pool[cnt:]` panics unless `0 ≤ cnt ≤ len(pool)`. -/
def getBlock (env : Env) (bz : BizCoin) (n : Int) : GetBlockResult :=
  match bz.transactionLock with
  | none => .panic
  | some mutex =>
    if mutex.locked then .blocked
    else if bz.transaction_pool.length < 1 then
      .error "no transaction available" bz
    else
      let trlist := env.NewTransactionList bz.transaction_pool n
      let header := env.NewHeader trlist bz.lastBlock bz.lastKeyBlock
      let trblock := env.NewTrBlock trlist header
      let cnt := trblock.TransactionList.TxCnt
      if 0 ≤ cnt ∧ cnt ≤ (bz.transaction_pool.length : Int) then
        .block trblock { bz with transaction_pool := bz.transaction_pool.drop cnt.toNat }
      else
        .panic

/-- Calling `getBlock(n)` `k` times in a row, each call on the node the call
before left: the blocks in order and the node after the last call, provided
every call returned a block. -/
def getBlocks (env : Env) : Nat → BizCoin → Int → Option (List TrBlock × BizCoin)
  | 0, bz, _ => some ([], bz)
  | k + 1, bz, n =>
    match getBlock env bz n with
    | .block trblock bz1 =>
      match getBlocks env k bz1 n with
      | some (blocks, bz2) => some (trblock :: blocks, bz2)
      | none => none
    | _ => none

/-! ## Originating a commitment -/

/-- The method `startPrepareCommitment`. -/
def startPrepareCommitment (env : Env) (bz : BizCoin) : Outcome :=
  let (p, cm) := env.cosi.CreateCommitment bz.prepare
  sendParent env { bz with prepare := p }
    (.commitment (some { TYPE := .ROUND_PREPARE, Commitment := cm }))

/-- The method `startCommitCommitment`. -/
def startCommitCommitment (env : Env) (bz : BizCoin) : Outcome :=
  let (c, cm) := env.cosi.CreateCommitment bz.commit
  sendParent env { bz with commit := c }
    (.commitment (some { TYPE := .ROUND_COMMIT, Commitment := cm }))

/-- The method `handleAnnouncement`. -/
def handleAnnouncement (env : Env) (bz : BizCoin) (ann : BizCoinAnnounce) : Outcome :=
  match ann.TYPE with
  | .ROUND_PREPARE =>
    let (p, a) := env.cosi.Announce bz.prepare ann.Announcement
    let bz1 := { bz with prepare := p }
    if IsLeaf env then startPrepareCommitment env bz1
    else broadcast env bz1 (.announce { TYPE := .ROUND_PREPARE, Announcement := a })
  | .ROUND_COMMIT =>
    let (c, a) := env.cosi.Announce bz.commit ann.Announcement
    let bz1 := { bz with commit := c }
    if IsLeaf env then startCommitCommitment env bz1
    else broadcast env bz1 (.announce { TYPE := .ROUND_COMMIT, Announcement := a })
  | .other _ =>
    broadcast env bz (.announce { TYPE := env.zeroTYPE, Announcement := none })

/-! ## Challenges at the root -/

/-- The method `startPrepareChallenge`. -/
def startPrepareChallenge (env : Env) (bz : BizCoin) : Outcome :=
  match getBlock env bz bz.blockSize with
  | .panic => { bz := bz, sent := [], status := .panicked }
  | .blocked => { bz := bz, sent := [], status := .blocked }
  | .error err bz1 => { bz := bz1, sent := [], status := .returned (some err) }
  | .block trblock bz1 =>
    let bz2 := { bz1 with tempBlock := some trblock }
    match jsonMarshal env (some trblock) with
    | .error err => { bz := bz2, sent := [], status := .returned (some err) }
    | .ok marshalled =>
      match env.cosi.CreateChallenge bz2.prepare marshalled with
      | (p, .error err) =>
        { bz := { bz2 with prepare := p }, sent := [], status := .returned (some err) }
      | (p, .ok ch) =>
        broadcast env { bz2 with prepare := p }
          (.challengePrepare { TYPE := .ROUND_PREPARE, Challenge := ch, TrBlock := some trblock })

/-- The method `startCommitChallenge`: it first receives from
`prepareFinishedChan`, which never returns on a nil channel or while nothing
has been sent. -/
def startCommitChallenge (env : Env) (bz : BizCoin) : Outcome :=
  match bz.prepareFinishedChan with
  | none => { bz := bz, sent := [], status := .blocked }
  | some [] => { bz := bz, sent := [], status := .blocked }
  | some (_ :: waiting) =>
    let bz1 := { bz with prepareFinishedChan := some waiting }
    match jsonMarshal env bz1.tempBlock with
    | .error err => { bz := bz1, sent := [], status := .returned (some err) }
    | .ok marshalled =>
      match env.cosi.CreateChallenge bz1.commit marshalled with
      | (c, .error err) =>
        { bz := { bz1 with commit := c }, sent := [], status := .returned (some err) }
      | (c, .ok chal) =>
        broadcast env { bz1 with commit := c }
          (.challengeCommit
            { TYPE := .ROUND_COMMIT, Challenge := chal,
              Signature := env.cosi.Signature bz1.prepare, Exceptions := [] })

/-! ## Commitments going up -/

/-- The method `handleCommit`. -/
def handleCommit (env : Env) (bz : BizCoin) (ann : BizCoinCommitment) : Outcome :=
  match ann.TYPE with
  | .ROUND_PREPARE =>
    let bz1 := { bz with tempPrepareCommit := bz.tempPrepareCommit ++ [ann.Commitment] }
    if bz1.tempPrepareCommit.length < env.Children.length then
      { bz := bz1, sent := [], status := .returned none }
    else
      let (p, commit) := env.cosi.Commit bz1.prepare bz1.tempPrepareCommit
      let bz2 := { bz1 with prepare := p }
      if IsRoot env then startPrepareChallenge env bz2
      else sendParent env bz2
        (.commitment (some { TYPE := .ROUND_PREPARE, Commitment := commit }))
  | .ROUND_COMMIT =>
    let bz1 := { bz with tempCommitCommit := bz.tempCommitCommit ++ [ann.Commitment] }
    if bz1.tempCommitCommit.length < env.Children.length then
      { bz := bz1, sent := [], status := .returned none }
    else
      let (c, commit) := env.cosi.Commit bz1.commit bz1.tempCommitCommit
      let bz2 := { bz1 with commit := c }
      if IsRoot env then startCommitChallenge env bz2
      else sendParent env bz2
        (.commitment (some { TYPE := .ROUND_COMMIT, Commitment := commit }))
  | .other _ => sendParent env bz (.commitment none)

/-! ## Responses -/

/-- The method `waitResponseVerification`: `none` when nothing waits on
`verifyBlockChan`; otherwise the response, the flag, and the node after the
receive. -/
def waitResponseVerification (env : Env) (bz : BizCoin) :
    Option (BizCoinResponse × Bool × BizCoin) :=
  let bzr : BizCoinResponse := { TYPE := .ROUND_PREPARE, Response := none, Exceptions := [] }
  match bz.verifyBlockChan with
  | [] => none
  | verified :: waiting =>
    let bz1 := { bz with verifyBlockChan := waiting }
    if !verified then
      some ({ bzr with Exceptions := bzr.Exceptions ++
                [{ Public := env.Public, Commitment := env.cosi.GetCommitment bz1.prepare }] },
            false, bz1)
    else
      some (bzr, true, bz1)

/-- The method `startPrepareResponse`. -/
def startPrepareResponse (env : Env) (bz : BizCoin) : Outcome :=
  match env.cosi.CreateResponse bz.prepare with
  | (p, .error err) => { bz := { bz with prepare := p }, sent := [], status := .returned (some err) }
  | (p, .ok resp) =>
    let bz1 := { bz with prepare := p }
    match waitResponseVerification env bz1 with
    | none => { bz := bz1, sent := [], status := .blocked }
    | some (bzr, ok, bz2) =>
      let bzr1 := if ok then { bzr with Response := some resp } else bzr
      sendParent env bz2 (.response bzr1)

/-- The method `startCommitResponse`. -/
def startCommitResponse (env : Env) (bz : BizCoin) : Outcome :=
  let bzr : BizCoinResponse := { TYPE := .ROUND_COMMIT, Response := none, Exceptions := [] }
  if bz.signRefusal then
    sendParent env bz
      (.response { bzr with Exceptions := bzr.Exceptions ++
        [{ Public := env.Public, Commitment := env.cosi.GetCommitment bz.commit }] })
  else
    match env.cosi.CreateResponse bz.commit with
    | (c, .error err) =>
      { bz := { bz with commit := c }, sent := [], status := .returned (some err) }
    | (c, .ok resp) =>
      sendParent env { bz with commit := c } (.response { bzr with Response := some resp })

/-- The method `handleCommitResponse`. -/
def handleCommitResponse (env : Env) (bz : BizCoin) (bzr : BizCoinResponse) : Outcome :=
  let bz1 := { bz with tempCommitResponse := bz.tempCommitResponse ++ [bzr.Response] }
  if bz1.tempCommitResponse.length < env.Children.length then
    { bz := bz1, sent := [], status := .returned none }
  else if bz1.signRefusal then
    let bzr1 := { bzr with Exceptions := bzr.Exceptions ++
      [{ Public := env.Public, Commitment := env.cosi.GetCommitment bz1.commit }] }
    if IsRoot env then { bz := bz1, sent := [], status := .returned none }
    else sendParent env bz1 (.response bzr1)
  else
    match env.cosi.Response bz1.commit bz1.tempCommitResponse with
    | (c, .error err) =>
      { bz := { bz1 with commit := c }, sent := [], status := .returned (some err) }
    | (c, .ok resp) =>
      let bz2 := { bz1 with commit := c }
      let bzr1 := { bzr with Response := some resp }
      if IsRoot env then { bz := bz2, sent := [], status := .returned none }
      else sendParent env bz2 (.response bzr1)

/-- The method `handlePrepareResponse`. At the root a task is spawned that sends
`true` on `prepareFinishedChan`; on a nil channel that send never arrives. -/
def handlePrepareResponse (env : Env) (bz : BizCoin) (bzr : BizCoinResponse) : Outcome :=
  let bz1 := { bz with tempPrepareResponse := bz.tempPrepareResponse ++ [bzr.Response] }
  if bz1.tempPrepareResponse.length < env.Children.length then
    { bz := bz1, sent := [], status := .returned none }
  else
    match waitResponseVerification env bz1 with
    | none => { bz := bz1, sent := [], status := .blocked }
    | some (bzrReturn, ok, bz2) =>
      let finish (bz3 : BizCoin) (out : BizCoinResponse) : Outcome :=
        if IsRoot env then
          { bz := { bz3 with prepareFinishedChan :=
                      bz3.prepareFinishedChan.map (fun waiting => waiting ++ [true]) },
            sent := [], status := .returned none }
        else sendParent env bz3 (.response out)
      if ok then
        match env.cosi.Response bz2.prepare bz2.tempPrepareResponse with
        | (p, .error err) =>
          { bz := { bz2 with prepare := p }, sent := [], status := .returned (some err) }
        | (p, .ok resp) => finish { bz2 with prepare := p } { bzrReturn with Response := some resp }
      else finish bz2 bzrReturn

/-! ## Challenges going down -/

/-- The method `handlePrepareChallenge`. The task spawned by
`go bz.verifyBlock(bz.tempBlock)` leaves its value waiting on `verifyBlockChan`;
on a nil block it delivers nothing and panics when it reads the header, while
the handler itself goes on as for any block. -/
def handlePrepareChallenge (env : Env) (bz : BizCoin) (ch : BizCoinChallengePrepare) : Outcome :=
  let bz1 := { bz with tempBlock := ch.TrBlock }
  let bz2 :=
    match bz1.tempBlock with
    | some block =>
      { bz1 with verifyBlockChan := bz1.verifyBlockChan ++ [verifyBlock env bz1 block] }
    | none => bz1
  let (p, chal) := env.cosi.Challenge bz2.prepare ch.Challenge
  let bz3 := { bz2 with prepare := p }
  let ch1 := { ch with Challenge := chal }
  let out :=
    if IsLeaf env then startPrepareResponse env bz3
    else broadcast env bz3 (.challengePrepare ch1)
  { out with taskPanic := out.taskPanic || bz1.tempBlock.isNone }

/-- The threshold `int(math.Ceil(float64(n) / 3.0))` for `n` the length of a list.
The conversion `float64(n)` is exact below `2^53`; the rounded quotient is `n / 3`
itself when 3 divides `n` and otherwise lies strictly between the same two
integers as `n / 3`, so `Ceil` gives the integer ceiling of `n / 3`. -/
def threshold (n : Nat) : Nat := (n + 2) / 3

/-- The method `handleCommitChallenge`. -/
def handleCommitChallenge (env : Env) (bz : BizCoin) (ch : BizCoinChallengeCommit) : Outcome :=
  match jsonMarshal env bz.tempBlock with
  | .error err => { bz := bz, sent := [], status := .returned (some err) }
  | .ok marshalled =>
    let bz1 :=
      match env.cosi.VerifyCosiSignatureWithException bz.aggregatedPublic marshalled
              ch.Signature ch.Exceptions with
      | some _ => { bz with signRefusal := true }
      | none => bz
    let bz2 :=
      if ch.Exceptions.length > threshold env.EntityList.length then
        { bz1 with signRefusal := true }
      else bz1
    if IsLeaf env then startCommitResponse env bz2
    else { bz := bz2, sent := (sendChildren env (.challengeCommit ch)).1, status := .returned none }

/-! ## The dispatch loop -/

/-- What one `select` of `Dispatch` can receive. -/
inductive Event where
  | announceChan (msg : BizCoinAnnounce)
  | commitChan (msg : BizCoinCommitment)
  | challengePrepareChan (msg : BizCoinChallengePrepare)
  | challengeCommitChan (msg : BizCoinChallengeCommit)
  | responseChan (msg : BizCoinResponse)
  | done
  deriving DecidableEq, Repr

/-- One iteration of the loop of `Dispatch`: the `select` on the received event;
the status holds the value of `err` that the iteration logs when it is not nil. -/
def Dispatch (env : Env) (bz : BizCoin) (ev : Event) : Outcome :=
  match ev with
  | .announceChan msg => handleAnnouncement env bz msg
  | .commitChan msg =>
    match msg.TYPE with
    | .ROUND_PREPARE => { bz := bz, sent := [], status := .returned none }
    | .ROUND_COMMIT => { bz := bz, sent := [], status := .returned none }
    | .other _ => { bz := bz, sent := [], status := .returned none }
  | .challengePrepareChan msg => handlePrepareChallenge env bz msg
  | .challengeCommitChan msg => handleCommitChallenge env bz msg
  | .responseChan msg =>
    match msg.TYPE with
    | .ROUND_PREPARE => { bz := bz, sent := [], status := .returned none }
    | .ROUND_COMMIT => { bz := bz, sent := [], status := .returned none }
    | .other _ => { bz := bz, sent := [], status := .returned none }
  | .done => { bz := bz, sent := [], status := .returned none }

/-! ## Concrete collaborators and nodes for the examples -/

/-- A signing primitive whose every operation succeeds: commitments and responses
aggregate by sum and every signature verifies. -/
def sampleCosi : CosiLib :=
  { NewCosi := fun key => key
    Announce := fun c a => (c, a)
    CreateCommitment := fun c => (c, c + 1)
    Commit := fun c cms => (c, cms.sum)
    CreateChallenge := fun c msg => (c, .ok msg.length)
    Challenge := fun c ch => (c, ch)
    CreateResponse := fun c => (c, .ok (c + 2))
    Response := fun c rs => (c, .ok (rs.filterMap id).sum)
    Signature := fun c => c
    GetCommitment := fun c => c + 1
    VerifyCosiSignatureWithException := fun _ _ _ _ => none }

/-- The signing primitive of `sampleCosi`, except that `CreateResponse` fails
(the round state is incomplete). -/
def failingCosi : CosiLib :=
  { sampleCosi with CreateResponse := fun c => (c, .error "no challenge") }

/-- An environment with the given position in the tree and list of identities;
its block helpers are the ones modelled from the spec. -/
def sampleEnv (lib : CosiLib) (parent : Option TreeNode) (children : List TreeNode)
    (entities : List Point) : Env :=
  { Parent := parent
    Children := children
    Public := 100
    EntityList := entities
    SendTo := fun _ _ => none
    Private := 7
    PointNull := 0
    PointAdd := fun a b => a + b
    cosi := lib
    HashRootTransactions := fun l => toString l.Txs.sum
    HashHeader := fun h => h.MerkleRoot ++ h.Parent ++ h.ParentKey
    NewTransactionList := NewTransactionList
    NewHeader := fun l parent parentKey =>
      { MerkleRoot := toString l.Txs.sum, Parent := parent, ParentKey := parentKey }
    NewTrBlock := fun l h =>
      { HeaderHash := h.MerkleRoot ++ h.Parent ++ h.ParentKey, Header := h, TransactionList := l }
    jsonEncode := fun b => match b with
      | none => []
      | some blk => blk.TransactionList.Txs
    zeroTYPE := .ROUND_PREPARE }

/-- A node with the given pool, a free transaction lock, empty buffers and the
refusal flag given. -/
def sampleNode (pool : List Tx) (refuse : Bool) : BizCoin :=
  { aggregatedPublic := 0
    prepare := 10
    commit := 20
    prepareFinishedChan := some []
    verifyBlockChan := []
    blockSize := 2
    tempBlock := none
    transaction_pool := pool
    transactionLock := some { locked := false }
    lastBlock := "b0"
    lastKeyBlock := "k0"
    tempPrepareCommit := []
    tempCommitCommit := []
    tempPrepareResponse := []
    tempCommitResponse := []
    signRefusal := refuse }

/-- A leaf below node 1 in a tree of four nodes. -/
def leafEnv : Env := sampleEnv sampleCosi (some 1) [] [100, 101, 102, 103]

/-- A leaf whose `CreateResponse` fails. -/
def failingLeafEnv : Env := sampleEnv failingCosi (some 1) [] [100, 101, 102, 103]

/-- An inner node below node 1 with the two children 2 and 3. -/
def innerEnv : Env := sampleEnv sampleCosi (some 1) [2, 3] [100, 101, 102, 103]

/-! ## Block verifier -/

/-- C1: the value `verifyBlock` delivers is true exactly when the four checks
hold (parent, parent key, Merkle root, header hash); in particular it is false
as soon as the parent or the parent key differs from the node's last accepted
value, whatever the Merkle root and the header hash are. -/
theorem verifyBlock_true_iff (env : Env) (bz : BizCoin) (block : TrBlock) :
    (verifyBlock env bz block = true ↔
      (block.Header.Parent = bz.lastBlock ∧
       block.Header.ParentKey = bz.lastKeyBlock ∧
       block.Header.MerkleRoot = env.HashRootTransactions block.TransactionList ∧
       block.HeaderHash = env.HashHeader block.Header)) ∧
    ((block.Header.Parent ≠ bz.lastBlock ∨ block.Header.ParentKey ≠ bz.lastKeyBlock) →
      verifyBlock env bz block = false) := by
  constructor
  · simp only [verifyBlock, Bool.and_eq_true, decide_eq_true_eq]
    tauto
  · intro h
    cases hv : verifyBlock env bz block with
    | false => rfl
    | true =>
      simp only [verifyBlock, Bool.and_eq_true, decide_eq_true_eq] at hv
      rcases h with h | h
      · exact absurd hv.1.1.1 h
      · exact absurd hv.1.1.2 h

/-- Example for C1: a block linked to another parent is rejected by the leaf,
though its Merkle root and header hash are the recomputed ones. -/
theorem verifyBlock_true_iff_witness :
    verifyBlock leafEnv (sampleNode [] false)
      (NewTrBlock leafEnv (NewTransactionList [1, 2] 2)
        (NewHeader leafEnv (NewTransactionList [1, 2] 2) "other" "k0")) = false :=
  (verifyBlock_true_iff leafEnv (sampleNode [] false) _).2 (Or.inl (by decide))

/-! ## Block assembler -/

/-- On a node with a free lock and an empty pool `getBlock` returns the error
and the node as it was. -/
theorem getBlock_nil (env : Env) (bz : BizCoin) (n : Int)
    (hlock : bz.transactionLock = some { locked := false })
    (h : bz.transaction_pool = []) :
    getBlock env bz n = .error "no transaction available" bz := by
  simp [getBlock, hlock, h]

/-- On a node with a free lock and a pool of `M > 0` transactions, when
`NewTransactionList` selects the first `k` transactions with `k ≤ M` and
reports `k` as `TxCnt`, and `NewTrBlock` stores the list it is given,
`getBlock` returns the assembled block and drops `k` transactions. -/
theorem getBlock_cons (env : Env) (bz : BizCoin) (n : Int) (k : Nat)
    (hlock : bz.transactionLock = some { locked := false })
    (h : bz.transaction_pool ≠ [])
    (hk : k ≤ bz.transaction_pool.length)
    (hlist : env.NewTransactionList bz.transaction_pool n =
      { TxCnt := (k : Int), Txs := bz.transaction_pool.take k })
    (hblock : ∀ (l : TransactionList) (hd : Header), (env.NewTrBlock l hd).TransactionList = l) :
    getBlock env bz n =
      .block
        (env.NewTrBlock (env.NewTransactionList bz.transaction_pool n)
          (env.NewHeader (env.NewTransactionList bz.transaction_pool n)
            bz.lastBlock bz.lastKeyBlock))
        { bz with transaction_pool := bz.transaction_pool.drop k } := by
  have hlen : ¬ bz.transaction_pool.length < 1 := by
    have := List.length_pos.mpr h
    omega
  have hcnt : (env.NewTrBlock (env.NewTransactionList bz.transaction_pool n)
      (env.NewHeader (env.NewTransactionList bz.transaction_pool n)
        bz.lastBlock bz.lastKeyBlock)).TransactionList.TxCnt = (k : Int) := by
    rw [hblock, hlist]
  simp only [getBlock, hlock, hlen, if_false, hcnt, Int.toNat_ofNat, Bool.false_eq_true]
  rw [if_pos]
  constructor
  · exact Int.ofNat_nonneg _
  · exact_mod_cast hk

/-- C2: what the code does on the node `NewBizCoinProtocol` builds. The pool of
that node is empty and its `transactionLock` is nil, and `getBlock(n)` panics
in `Lock` for every `n`: it returns neither the error "no transaction
available" nor a block. -/
theorem getBlock_panics_on_new_node (env : Env) (n : Int) :
    (NewBizCoinProtocol env).transaction_pool = [] ∧
    (NewBizCoinProtocol env).transactionLock = none ∧
    getBlock env (NewBizCoinProtocol env) n = .panic ∧
    getBlock env (NewBizCoinProtocol env) n ≠
      .error "no transaction available" (NewBizCoinProtocol env) := by
  refine ⟨rfl, rfl, rfl, ?_⟩
  intro h
  have hp : getBlock env (NewBizCoinProtocol env) n = .panic := rfl
  rw [hp] at h
  cases h

/-- C3: what the code does on a node whose pool holds transactions while its
`transactionLock` is nil, as `NewBizCoinProtocol` leaves it: `getBlock(n)`
panics in `Lock` for every `n`; no block is returned and the pool is not
shortened by a returned node. -/
theorem getBlock_panics_on_pool_without_lock (env : Env) (pool : List Tx) (n : Int) :
    ({ NewBizCoinProtocol env with transaction_pool := pool } : BizCoin).transactionLock = none ∧
    getBlock env { NewBizCoinProtocol env with transaction_pool := pool } n = .panic ∧
    ¬ ∃ (trblock : TrBlock) (bz1 : BizCoin),
        getBlock env { NewBizCoinProtocol env with transaction_pool := pool } n =
          .block trblock bz1 := by
  refine ⟨rfl, rfl, ?_⟩
  rintro ⟨trblock, bz1, h⟩
  have hp : getBlock env { NewBizCoinProtocol env with transaction_pool := pool } n = .panic :=
    rfl
  rw [hp] at h
  cases h

/-- A request of no transaction, on a node with a free lock and a pool that is
not empty: when `NewTransactionList` selects the first `min(0, M) = 0`
transactions and reports that count, the call returns a block and leaves the
node, and so the pool, as it was. -/
theorem getBlock_zero (env : Env) (bz : BizCoin)
    (hlock : bz.transactionLock = some { locked := false })
    (h : bz.transaction_pool ≠ [])
    (hlist : env.NewTransactionList bz.transaction_pool 0 = { TxCnt := 0, Txs := [] })
    (hblock : ∀ (l : TransactionList) (hd : Header), (env.NewTrBlock l hd).TransactionList = l) :
    ∃ trblock, getBlock env bz 0 = .block trblock bz := by
  refine ⟨env.NewTrBlock (env.NewTransactionList bz.transaction_pool 0)
    (env.NewHeader (env.NewTransactionList bz.transaction_pool 0)
      bz.lastBlock bz.lastKeyBlock), ?_⟩
  have hstep := getBlock_cons env bz 0 0 hlock h (Nat.zero_le _) (by simpa using hlist) hblock
  rw [hstep]
  cases bz
  simp

/-- Asking for no transaction leaves a pool of one transaction as it is, however
often it is repeated. -/
theorem getBlocks_zero_fixed (k : Nat) :
    ∃ blocks, getBlocks leafEnv k (sampleNode [5] false) 0 =
      some (blocks, sampleNode [5] false) := by
  induction k with
  | zero => exact ⟨[], rfl⟩
  | succ k ih =>
    obtain ⟨blocks, hb⟩ := ih
    obtain ⟨trblock, hstep⟩ :=
      getBlock_zero leafEnv (sampleNode [5] false) rfl (by decide) rfl (fun _ _ => rfl)
    exact ⟨trblock :: blocks, by simp only [getBlocks, hstep, hb]⟩

/-- C4, as stated, fails: on a node with a free lock and the pool of one
transaction, the request `n = 0 ≤ 1` makes `NewTransactionList` select the
first `min(0, 1) = 0` transactions with `TxCnt = 0`, and no number of calls of
`getBlock(0)` reaches an empty pool. -/
theorem getBlocks_zero_never_exhausts :
    (0 : Int) ≤ ((sampleNode [5] false).transaction_pool.length : Int) ∧
    (sampleNode [5] false).transactionLock = some { locked := false } ∧
    leafEnv.NewTransactionList (sampleNode [5] false).transaction_pool 0 =
      { TxCnt := 0, Txs := [] } ∧
    ¬ ∃ (k : Nat) (blocks : List TrBlock) (bz1 : BizCoin),
        getBlocks leafEnv k (sampleNode [5] false) 0 = some (blocks, bz1) ∧
        bz1.transaction_pool = [] := by
  refine ⟨by decide, rfl, rfl, ?_⟩
  rintro ⟨k, blocks, bz1, hk, hnil⟩
  obtain ⟨blocks0, h0⟩ := getBlocks_zero_fixed k
  rw [h0] at hk
  simp only [Option.some.injEq, Prod.mk.injEq] at hk
  rw [← hk.2] at hnil
  exact absurd hnil (by decide)

/-- Repeated assembly with a request of at least one transaction, on a pool of
at most `m` transactions. -/
theorem getBlocks_exhausts_aux (env : Env) (n : Int) (hn : 1 ≤ n)
    (hlist : ∀ pool : List Tx, env.NewTransactionList pool n =
      { TxCnt := min n (pool.length : Int),
        Txs := pool.take (min n (pool.length : Int)).toNat })
    (hblock : ∀ (l : TransactionList) (hd : Header), (env.NewTrBlock l hd).TransactionList = l)
    (m : Nat) :
    ∀ bz : BizCoin, bz.transactionLock = some { locked := false } →
      bz.transaction_pool.length ≤ m →
      ∃ (k : Nat) (blocks : List TrBlock) (bz1 : BizCoin),
        k ≤ bz.transaction_pool.length ∧
        getBlocks env k bz n = some (blocks, bz1) ∧
        blocks.length = k ∧
        bz1 = { bz with transaction_pool := [] } ∧
        (blocks.map (fun b => b.TransactionList.Txs)).flatten = bz.transaction_pool := by
  induction m with
  | zero =>
    intro bz _ hlen
    have hnil : bz.transaction_pool = [] := List.length_eq_zero.mp (Nat.le_zero.mp hlen)
    refine ⟨0, [], bz, Nat.zero_le _, rfl, rfl, ?_, ?_⟩
    · cases bz
      simp only [BizCoin.mk.injEq, true_and, and_true] at hnil ⊢
      simp [hnil]
    · simp [hnil]
  | succ m ih =>
    intro bz hlock hlen
    by_cases hnil : bz.transaction_pool = []
    · refine ⟨0, [], bz, Nat.zero_le _, rfl, rfl, ?_, ?_⟩
      · cases bz
        simp only [BizCoin.mk.injEq, true_and, and_true] at hnil ⊢
        simp [hnil]
      · simp [hnil]
    · have hpos : 0 < bz.transaction_pool.length := List.length_pos.mpr hnil
      have hk1 : 1 ≤ (min n (bz.transaction_pool.length : Int)).toNat := by omega
      have hk2 : (min n (bz.transaction_pool.length : Int)).toNat ≤ bz.transaction_pool.length := by
        omega
      have hcast : (((min n (bz.transaction_pool.length : Int)).toNat : Nat) : Int) =
          min n (bz.transaction_pool.length : Int) := by omega
      have hstep := getBlock_cons env bz n (min n (bz.transaction_pool.length : Int)).toNat
        hlock hnil hk2 (by rw [hlist, hcast]) hblock
      obtain ⟨k, blocks, bz2, hk, hrun, hcount, hbz2, hcat⟩ :=
        ih { bz with transaction_pool :=
              bz.transaction_pool.drop (min n (bz.transaction_pool.length : Int)).toNat }
          hlock (by simp only [List.length_drop]; omega)
      refine ⟨k + 1,
        env.NewTrBlock (env.NewTransactionList bz.transaction_pool n)
          (env.NewHeader (env.NewTransactionList bz.transaction_pool n)
            bz.lastBlock bz.lastKeyBlock)
          :: blocks, bz2, ?_, ?_, ?_, ?_, ?_⟩
      · simp only [List.length_drop] at hk
        omega
      · simp only [getBlocks, hstep, hrun]
      · simp [hcount]
      · rw [hbz2]
      · simp only [List.map_cons, List.flatten_cons, hcat, hblock, hlist]
        exact List.take_append_drop _ _

/-- C4, amended: on a node whose transaction lock is set and free, when
`NewTransactionList` selects the first `min(n, M)` transactions of a pool of
`M` and reports that count as `TxCnt` and `NewTrBlock` stores the list it is
given, for every pool of `M` transactions and every request `n ≥ 1` calling
`getBlock(n)` repeatedly reaches the empty pool after at most `M` calls, every
one of which returns a block; the transaction lists of these blocks,
concatenated in order, are the original pool; and the call made on the emptied
pool fails with "no transaction available". -/
theorem getBlocks_exhausts (env : Env) (bz : BizCoin) (n : Int) (hn : 1 ≤ n)
    (hlock : bz.transactionLock = some { locked := false })
    (hlist : ∀ pool : List Tx, env.NewTransactionList pool n =
      { TxCnt := min n (pool.length : Int),
        Txs := pool.take (min n (pool.length : Int)).toNat })
    (hblock : ∀ (l : TransactionList) (hd : Header),
      (env.NewTrBlock l hd).TransactionList = l) :
    ∃ (k : Nat) (blocks : List TrBlock) (bz1 : BizCoin),
      k ≤ bz.transaction_pool.length ∧
      getBlocks env k bz n = some (blocks, bz1) ∧
      blocks.length = k ∧
      bz1.transaction_pool = [] ∧
      (blocks.map (fun b => b.TransactionList.Txs)).flatten = bz.transaction_pool ∧
      getBlock env bz1 n = .error "no transaction available" bz1 := by
  obtain ⟨k, blocks, bz1, hk, hrun, hcount, hbz1, hcat⟩ :=
    getBlocks_exhausts_aux env n hn hlist hblock bz.transaction_pool.length bz hlock
      (Nat.le_refl _)
  have hnil : bz1.transaction_pool = [] := by rw [hbz1]
  have hlock1 : bz1.transactionLock = some { locked := false } := by rw [hbz1]; exact hlock
  exact ⟨k, blocks, bz1, hk, hrun, hcount, hnil, hcat, getBlock_nil env bz1 n hlock1 hnil⟩

/-- The sample `NewTransactionList` selects the first `min(n, M)` transactions
and reports that count, for every `n ≥ 0`. -/
theorem NewTransactionList_first (pool : List Tx) (n : Int) (hn : 0 ≤ n) :
    NewTransactionList pool n =
      { TxCnt := min n (pool.length : Int),
        Txs := pool.take (min n (pool.length : Int)).toNat } := by
  have hcast : (((min n (pool.length : Int)).toNat : Nat) : Int) = min n (pool.length : Int) := by
    omega
  simp only [NewTransactionList, hcast]

/-- Example for C4: the pool `[5, 6, 7]` with requests of 2 is used up by the
two blocks `[5, 6]` and `[7]`, and the third call fails. -/
theorem getBlocks_exhausts_witness :
    (1 : Int) ≤ 2 ∧
    (∃ (k : Nat) (blocks : List TrBlock) (bz1 : BizCoin),
      k ≤ (sampleNode [5, 6, 7] false).transaction_pool.length ∧
      getBlocks leafEnv k (sampleNode [5, 6, 7] false) 2 = some (blocks, bz1) ∧
      blocks.length = k ∧
      bz1.transaction_pool = [] ∧
      (blocks.map (fun b => b.TransactionList.Txs)).flatten =
        (sampleNode [5, 6, 7] false).transaction_pool ∧
      getBlock leafEnv bz1 2 = .error "no transaction available" bz1) ∧
    (((getBlocks leafEnv 2 (sampleNode [5, 6, 7] false) 2).map
        (fun r => r.1.map (fun b => b.TransactionList.Txs))) = some [[5, 6], [7]]) :=
  ⟨by decide,
   getBlocks_exhausts leafEnv (sampleNode [5, 6, 7] false) 2 (by decide) rfl
     (fun pool => NewTransactionList_first pool 2 (by decide)) (fun _ _ => rfl),
   by rfl⟩

/-! ## Commit challenge: the refusal flag -/

/-- The threshold is the ceiling of `n / 3`: the least `t` with `n ≤ 3 * t`. -/
theorem threshold_is_ceil (n : Nat) :
    n ≤ 3 * threshold n ∧ 3 * threshold n < n + 3 := by
  unfold threshold
  omega

/-- Originating the commit response does not touch the refusal flag. -/
theorem startCommitResponse_signRefusal (env : Env) (bz : BizCoin) :
    (startCommitResponse env bz).bz.signRefusal = bz.signRefusal := by
  unfold startCommitResponse
  by_cases hr : bz.signRefusal = true
  · simp [hr, sendParent]
  · simp only [hr]
    rcases hc : env.cosi.CreateResponse bz.commit with ⟨c, r⟩
    cases r <;> simp [sendParent]

/-- The refusal flag after `handleCommitChallenge`: the flag before, or the
signature did not verify, or the exceptions exceed the threshold. -/
theorem handleCommitChallenge_flag (env : Env) (bz : BizCoin) (ch : BizCoinChallengeCommit) :
    (handleCommitChallenge env bz ch).bz.signRefusal =
      (bz.signRefusal ||
        (env.cosi.VerifyCosiSignatureWithException bz.aggregatedPublic
          (env.jsonEncode bz.tempBlock) ch.Signature ch.Exceptions).isSome ||
        decide (ch.Exceptions.length > threshold env.EntityList.length)) := by
  unfold handleCommitChallenge
  simp only [jsonMarshal]
  by_cases hl : IsLeaf env = true
  · simp only [hl, if_true, startCommitResponse_signRefusal]
    cases hv : env.cosi.VerifyCosiSignatureWithException bz.aggregatedPublic
        (env.jsonEncode bz.tempBlock) ch.Signature ch.Exceptions <;>
      by_cases ht : ch.Exceptions.length > threshold env.EntityList.length <;>
      simp [ht]
  · simp only [hl]
    cases hv : env.cosi.VerifyCosiSignatureWithException bz.aggregatedPublic
        (env.jsonEncode bz.tempBlock) ch.Signature ch.Exceptions <;>
      by_cases ht : ch.Exceptions.length > threshold env.EntityList.length <;>
      simp [ht]

/-- C5: with `N` the number of identities, `handleCommitChallenge` sets the
refusal flag whenever the challenge carries more than `⌈N/3⌉` exceptions,
whether the prepare signature verifies or not; when the signature verifies and
the exceptions are at most `⌈N/3⌉` the flag keeps its value; a flag that is
set stays set. The threshold used is the ceiling of `N / 3`. -/
theorem handleCommitChallenge_signRefusal (env : Env) (bz : BizCoin)
    (ch : BizCoinChallengeCommit) :
    (env.EntityList.length ≤ 3 * threshold env.EntityList.length ∧
      3 * threshold env.EntityList.length < env.EntityList.length + 3) ∧
    (ch.Exceptions.length > threshold env.EntityList.length →
      (handleCommitChallenge env bz ch).bz.signRefusal = true) ∧
    (env.cosi.VerifyCosiSignatureWithException bz.aggregatedPublic
        (env.jsonEncode bz.tempBlock) ch.Signature ch.Exceptions = none →
      ch.Exceptions.length ≤ threshold env.EntityList.length →
      (handleCommitChallenge env bz ch).bz.signRefusal = bz.signRefusal) ∧
    (bz.signRefusal = true → (handleCommitChallenge env bz ch).bz.signRefusal = true) := by
  refine ⟨threshold_is_ceil _, ?_, ?_, ?_⟩
  · intro h
    rw [handleCommitChallenge_flag]
    simp [h]
  · intro hv ht
    rw [handleCommitChallenge_flag, hv]
    have : ¬ ch.Exceptions.length > threshold env.EntityList.length := by omega
    simp [this]
  · intro h
    rw [handleCommitChallenge_flag, h]
    simp

/-- Example for C5: in the tree of four nodes a challenge with three
exceptions sets the flag of a leaf whose flag was clear. -/
theorem handleCommitChallenge_signRefusal_witness :
    (handleCommitChallenge leafEnv (sampleNode [] false)
      { TYPE := .ROUND_COMMIT, Challenge := 0, Signature := 0,
        Exceptions := [⟨101, 1⟩, ⟨102, 2⟩, ⟨103, 3⟩] }).bz.signRefusal = true :=
  (handleCommitChallenge_signRefusal leafEnv (sampleNode [] false)
    { TYPE := .ROUND_COMMIT, Challenge := 0, Signature := 0,
      Exceptions := [⟨101, 1⟩, ⟨102, 2⟩, ⟨103, 3⟩] }).2.1 (by decide)

/-- C6: what the code does. In the tree of four nodes two refusals are more
than one third of the nodes (`3 * 2 > 4`), yet the threshold the code computes
is 2, which two exceptions do not exceed: a leaf whose flag is clear keeps it
clear on a commit challenge that carries two exceptions and a prepare
signature that verifies. -/
theorem handleCommitChallenge_two_of_four_keeps_flag :
    leafEnv.EntityList.length = 4 ∧
    leafEnv.EntityList.length < 3 * 2 ∧
    threshold leafEnv.EntityList.length = 2 ∧
    leafEnv.cosi.VerifyCosiSignatureWithException (sampleNode [] false).aggregatedPublic
      (leafEnv.jsonEncode (sampleNode [] false).tempBlock) 0 [⟨101, 1⟩, ⟨102, 2⟩] = none ∧
    (handleCommitChallenge leafEnv (sampleNode [] false)
      { TYPE := .ROUND_COMMIT, Challenge := 0, Signature := 0,
        Exceptions := [⟨101, 1⟩, ⟨102, 2⟩] }).bz.signRefusal = false := by
  refine ⟨rfl, by decide, rfl, rfl, rfl⟩

/-! ## Commit responses at a refusing inner node -/

/-- C7: what the code does. The refusing inner node with children 2 and 3 first
receives the response message of a child that forwards the exception
`(102, 7)`, then the message of a child that signed with response 9. The
message it sends to its parent carries its own exception only, not the
forwarded one, and it carries the response 9 of the last child. -/
theorem handleCommitResponse_loses_forwarded_exception :
    IsRoot innerEnv = false ∧
    (sampleNode [] true).signRefusal = true ∧
    (handleCommitResponse innerEnv (sampleNode [] true)
      { TYPE := .ROUND_COMMIT, Response := none, Exceptions := [⟨102, 7⟩] }).sent = [] ∧
    (handleCommitResponse innerEnv
      (handleCommitResponse innerEnv (sampleNode [] true)
        { TYPE := .ROUND_COMMIT, Response := none, Exceptions := [⟨102, 7⟩] }).bz
      { TYPE := .ROUND_COMMIT, Response := some 9, Exceptions := [] }).sent =
      [(some 1, .response
          { TYPE := .ROUND_COMMIT, Response := some 9, Exceptions := [⟨100, 21⟩] })] ∧
    (⟨102, 7⟩ : Exception) ∉ [(⟨100, 21⟩ : Exception)] ∧
    (some 9 : Option Response) ≠ none := by
  refine ⟨rfl, rfl, rfl, rfl, by decide, by decide⟩

/-! ## Prepare response at a leaf -/

/-- C8, as stated, fails: at a leaf whose `CreateResponse` fails, with the
verification outcome `false` waiting, `startPrepareResponse` returns the error
and sends no message to the parent. -/
theorem startPrepareResponse_abstains_on_error :
    IsLeaf failingLeafEnv = true ∧
    startPrepareResponse failingLeafEnv { sampleNode [] false with verifyBlockChan := [false] } =
      { bz := { sampleNode [] false with verifyBlockChan := [false] },
        sent := [],
        status := .returned (some "no challenge") } := by
  refine ⟨rfl, rfl⟩

/-- C8, amended: when the prepare round's `CreateResponse` succeeds with `resp`
and the verification outcome is delivered, `startPrepareResponse` sends exactly
one message to the parent: for the outcome `false` a prepare response without
response value and with exactly one exception, the node's own public identity
with its own prepare-round commitment; for the outcome `true` a prepare
response carrying `resp` and no exception. When `CreateResponse` fails, the
error is returned and nothing is sent. -/
theorem startPrepareResponse_sends (env : Env) (bz : BizCoin) :
    (∀ (p : Cosi) (resp : Response) (verified : Bool) (waiting : List Bool),
      env.cosi.CreateResponse bz.prepare = (p, .ok resp) →
      bz.verifyBlockChan = verified :: waiting →
      (startPrepareResponse env bz).sent =
        [(env.Parent, .response
            { TYPE := .ROUND_PREPARE
              Response := if verified then some resp else none
              Exceptions :=
                if verified then []
                else [{ Public := env.Public, Commitment := env.cosi.GetCommitment p }] })] ∧
      (startPrepareResponse env bz).status =
        .returned (env.SendTo env.Parent (.response
            { TYPE := .ROUND_PREPARE
              Response := if verified then some resp else none
              Exceptions :=
                if verified then []
                else [{ Public := env.Public, Commitment := env.cosi.GetCommitment p }] }))) ∧
    (∀ (p : Cosi) (err : Error),
      env.cosi.CreateResponse bz.prepare = (p, .error err) →
      (startPrepareResponse env bz).sent = [] ∧
      (startPrepareResponse env bz).status = .returned (some err)) := by
  constructor
  · intro p resp verified waiting hresp hchan
    cases verified <;>
      simp [startPrepareResponse, hresp, waitResponseVerification, hchan, sendParent]
  · intro p err hresp
    simp [startPrepareResponse, hresp]

/-- Example for C8: a leaf whose verification failed sends one message with no
response and its own exception; a leaf whose verification passed sends its
response and no exception. -/
theorem startPrepareResponse_sends_witness :
    (startPrepareResponse leafEnv { sampleNode [] false with verifyBlockChan := [false] }).sent =
      [(some 1, .response
          { TYPE := .ROUND_PREPARE, Response := none, Exceptions := [⟨100, 11⟩] })] ∧
    (startPrepareResponse leafEnv { sampleNode [] false with verifyBlockChan := [true] }).sent =
      [(some 1, .response
          { TYPE := .ROUND_PREPARE, Response := some 12, Exceptions := [] })] :=
  ⟨((startPrepareResponse_sends leafEnv
      { sampleNode [] false with verifyBlockChan := [false] }).1 10 12 false [] rfl rfl).1,
   ((startPrepareResponse_sends leafEnv
      { sampleNode [] false with verifyBlockChan := [true] }).1 10 12 true [] rfl rfl).1⟩

/-! ## Commitments at an inner node -/

/-- C9, as stated, fails: at the inner node with children 2 and 3 the second
prepare commitment makes the node send the aggregate 11 of the commitments 5
and 6 to its parent, and the prepare buffer still holds both commitments after
that call. -/
theorem handleCommit_keeps_buffer :
    IsRoot innerEnv = false ∧
    innerEnv.Children.length = 2 ∧
    (handleCommit innerEnv (sampleNode [] false)
      { TYPE := .ROUND_PREPARE, Commitment := 5 }).sent = [] ∧
    (handleCommit innerEnv
      (handleCommit innerEnv (sampleNode [] false)
        { TYPE := .ROUND_PREPARE, Commitment := 5 }).bz
      { TYPE := .ROUND_PREPARE, Commitment := 6 }).sent =
      [(some 1, .commitment (some { TYPE := .ROUND_PREPARE, Commitment := 11 }))] ∧
    (handleCommit innerEnv
      (handleCommit innerEnv (sampleNode [] false)
        { TYPE := .ROUND_PREPARE, Commitment := 5 }).bz
      { TYPE := .ROUND_PREPARE, Commitment := 6 }).bz.tempPrepareCommit = [5, 6] ∧
    ([5, 6] : List Commitment) ≠ [] := by
  refine ⟨rfl, rfl, rfl, rfl, rfl, by decide⟩

/-- C9, amended: at a node that is not the root, for each of the two rounds,
`handleCommit` appends the received commitment to the round's buffer; it
sends nothing while the buffer, the received commitment included, is shorter
than the list of children; on the call that brings the buffer to the number of
children it sends exactly one commitment message of that round to the parent,
carrying the aggregate of all buffered commitments; the buffer is not cleared
and holds all of them after that call. The buffer of the other round is
untouched. -/
theorem handleCommit_buffers (env : Env) (bz : BizCoin) (cm : Commitment)
    (parent : TreeNode) (hp : env.Parent = some parent) :
    ((handleCommit env bz { TYPE := .ROUND_PREPARE, Commitment := cm }).bz.tempPrepareCommit =
        bz.tempPrepareCommit ++ [cm] ∧
      (handleCommit env bz { TYPE := .ROUND_PREPARE, Commitment := cm }).bz.tempCommitCommit =
        bz.tempCommitCommit ∧
      (bz.tempPrepareCommit.length + 1 < env.Children.length →
        (handleCommit env bz { TYPE := .ROUND_PREPARE, Commitment := cm }).sent = []) ∧
      (bz.tempPrepareCommit.length + 1 = env.Children.length →
        (handleCommit env bz { TYPE := .ROUND_PREPARE, Commitment := cm }).sent =
          [(some parent, .commitment (some
              { TYPE := .ROUND_PREPARE
                Commitment :=
                  (env.cosi.Commit bz.prepare (bz.tempPrepareCommit ++ [cm])).2 }))])) ∧
    ((handleCommit env bz { TYPE := .ROUND_COMMIT, Commitment := cm }).bz.tempCommitCommit =
        bz.tempCommitCommit ++ [cm] ∧
      (handleCommit env bz { TYPE := .ROUND_COMMIT, Commitment := cm }).bz.tempPrepareCommit =
        bz.tempPrepareCommit ∧
      (bz.tempCommitCommit.length + 1 < env.Children.length →
        (handleCommit env bz { TYPE := .ROUND_COMMIT, Commitment := cm }).sent = []) ∧
      (bz.tempCommitCommit.length + 1 = env.Children.length →
        (handleCommit env bz { TYPE := .ROUND_COMMIT, Commitment := cm }).sent =
          [(some parent, .commitment (some
              { TYPE := .ROUND_COMMIT
                Commitment :=
                  (env.cosi.Commit bz.commit (bz.tempCommitCommit ++ [cm])).2 }))])) := by
  have hroot : IsRoot env = false := by simp [IsRoot, hp]
  refine ⟨⟨?_, ?_, ?_, ?_⟩, ⟨?_, ?_, ?_, ?_⟩⟩
  · by_cases hlt : bz.tempPrepareCommit.length + 1 < env.Children.length <;>
      simp [handleCommit, hlt, hroot, sendParent]
  · by_cases hlt : bz.tempPrepareCommit.length + 1 < env.Children.length <;>
      simp [handleCommit, hlt, hroot, sendParent]
  · intro hlt
    simp [handleCommit, hlt]
  · intro heq
    have hge : ¬ bz.tempPrepareCommit.length + 1 < env.Children.length := by omega
    simp [handleCommit, hge, hroot, sendParent, hp]
  · by_cases hlt : bz.tempCommitCommit.length + 1 < env.Children.length <;>
      simp [handleCommit, hlt, hroot, sendParent]
  · by_cases hlt : bz.tempCommitCommit.length + 1 < env.Children.length <;>
      simp [handleCommit, hlt, hroot, sendParent]
  · intro hlt
    simp [handleCommit, hlt]
  · intro heq
    have hge : ¬ bz.tempCommitCommit.length + 1 < env.Children.length := by omega
    simp [handleCommit, hge, hroot, sendParent, hp]

/-- Example for C9: the inner node with children 2 and 3 and the prepare
commitment 5 buffered receives the prepare commitment 6: it sends the
aggregate 11 to its parent and its buffer is `[5, 6]`. -/
theorem handleCommit_buffers_witness :
    (handleCommit innerEnv { sampleNode [] false with tempPrepareCommit := [5] }
      { TYPE := .ROUND_PREPARE, Commitment := 6 }).bz.tempPrepareCommit = [5] ++ [6] ∧
    (handleCommit innerEnv { sampleNode [] false with tempPrepareCommit := [5] }
      { TYPE := .ROUND_PREPARE, Commitment := 6 }).sent =
      [(some 1, .commitment (some
          { TYPE := .ROUND_PREPARE
            Commitment := (innerEnv.cosi.Commit 10 ([5] ++ [6])).2 }))] :=
  ⟨(handleCommit_buffers innerEnv { sampleNode [] false with tempPrepareCommit := [5] }
      6 1 rfl).1.1,
   (handleCommit_buffers innerEnv { sampleNode [] false with tempPrepareCommit := [5] }
      6 1 rfl).1.2.2.2 rfl⟩

/-! ## The dispatch loop -/

/-- C10: what the code does. One iteration of `Dispatch` that receives a
commitment or a response, whatever its round tag, leaves the node as it was
(the round buffers included) and sends nothing: the handlers `handleCommit`,
`handlePrepareResponse` and `handleCommitResponse` are not reached. The
announcement and the two challenges do reach their handlers. -/
theorem Dispatch_drops_commitments_and_responses (env : Env) (bz : BizCoin) :
    (∀ msg : BizCoinCommitment,
      Dispatch env bz (.commitChan msg) = { bz := bz, sent := [], status := .returned none }) ∧
    (∀ msg : BizCoinResponse,
      Dispatch env bz (.responseChan msg) = { bz := bz, sent := [], status := .returned none }) ∧
    (∀ msg : BizCoinAnnounce,
      Dispatch env bz (.announceChan msg) = handleAnnouncement env bz msg) ∧
    (∀ msg : BizCoinChallengePrepare,
      Dispatch env bz (.challengePrepareChan msg) = handlePrepareChallenge env bz msg) ∧
    (∀ msg : BizCoinChallengeCommit,
      Dispatch env bz (.challengeCommitChan msg) = handleCommitChallenge env bz msg) := by
  refine ⟨?_, ?_, fun _ => rfl, fun _ => rfl, fun _ => rfl⟩
  · intro msg
    cases h : msg.TYPE <;> simp [Dispatch, h]
  · intro msg
    cases h : msg.TYPE <;> simp [Dispatch, h]

end Bizcoin
